import Mathlib

/-!
Verification development for the taint-type inference engine in
`src/taint_state.rs`.  The driver (`TaintState`) is translated from the
source; the collaborating components whose sources are not part of the
repository snapshot (`tainted_type.rs`, `function_taint_state.rs`,
`function_summary.rs`, `named_structs.rs`, `worklist.rs`) are modelled
from the specification, as noted on each definition.  Rust `Result` is
embedded as `Except`, Rust panics as a distinguished abort constructor,
shared `Pointee` cells as an arena of cells addressed by `Nat` indices,
and the recursion through shared mutable cells and named-struct entries
is made total with an explicit fuel parameter.
-/

namespace LlvmTaint

/-- Modelled from the spec (section 3): the `TaintedType` lattice from the
missing `tainted_type.rs`.  Pointer pointees live in an arena of cells;
a pointer carries the index of its cell. -/
inductive TaintedType where
  | untaintedValue : TaintedType
  | taintedValue : TaintedType
  | untaintedFnPtr : TaintedType
  | taintedFnPtr : TaintedType
  | untaintedPointer (cell : Nat) : TaintedType
  | taintedPointer (cell : Nat) : TaintedType
  | arrayOrVector (elem : TaintedType) : TaintedType
  | struct (fields : List TaintedType) : TaintedType
  | namedStruct (name : String) : TaintedType

mutual

/-- Structural equality on tainted types (the Rust `PartialEq` derive). -/
def tteq : TaintedType → TaintedType → Bool
  | .untaintedValue, .untaintedValue => true
  | .taintedValue, .taintedValue => true
  | .untaintedFnPtr, .untaintedFnPtr => true
  | .taintedFnPtr, .taintedFnPtr => true
  | .untaintedPointer a, .untaintedPointer b => a == b
  | .taintedPointer a, .taintedPointer b => a == b
  | .arrayOrVector a, .arrayOrVector b => tteq a b
  | .struct a, .struct b => tteqList a b
  | .namedStruct a, .namedStruct b => a == b
  | _, _ => false

/-- Structural equality on lists of tainted types. -/
def tteqList : List TaintedType → List TaintedType → Bool
  | [], [] => true
  | x :: xs, y :: ys => tteq x y && tteqList xs ys
  | _, _ => false

end

/-- Modelled from the spec (section 4.2): a pointee cell of the missing
pointee-cell component: the pointee type together with the set of user
function names notified when the cell strictly increases. -/
structure Cell where
  ty : TaintedType
  users : List String

/-- Modelled from the spec (section 3): an entry of the missing
`named_structs.rs` table: the canonical tainted type of a named struct
and the set of user function names. -/
structure NSEntry where
  ty : TaintedType
  users : List String

/-- The cell arena. -/
abbrev Cells := List Cell

/-- The named-structs table. -/
abbrev Structs := List (String × NSEntry)

/-- The worklist, a set-semantics queue of function names. -/
abbrev WL := List String

/-- Association-list lookup keyed by strings. -/
def lookupS {α : Type} (k : String) : List (String × α) → Option α
  | [] => none
  | (k', v) :: rest => if k' = k then some v else lookupS k rest

/-- Association-list update or insert keyed by strings. -/
def setEntry {α : Type} : List (String × α) → String → α → List (String × α)
  | [], k, v => [(k, v)]
  | (k', v') :: rest, k, v =>
      if k' = k then (k, v) :: rest else (k', v') :: setEntry rest k v

/-- Modelled from the spec (section 4.4): `Worklist::add` of the missing
`worklist.rs`; adding an already-queued name is a no-op. -/
def wlAdd (wl : WL) (f : String) : WL :=
  if f ∈ wl then wl else wl ++ [f]

/-- Modelled from the spec (section 4.4): `Worklist::pop`; the pop order is
unspecified by the spec, modelled here as first-in-first-out. -/
def wlPop : WL → Option (String × WL)
  | [] => none
  | f :: rest => some (f, rest)

/-- Read a cell from the arena (dangling indices never arise in the runs we
consider; they read as a fresh untainted cell). -/
def cellOf (cells : Cells) (c : Nat) : Cell :=
  cells.getD c ⟨.untaintedValue, []⟩

/-- The pointee type currently stored in a cell (`Pointee::ty`). -/
def cellTyOf (cells : Cells) (c : Nat) : TaintedType :=
  (cellOf cells c).ty

/-- Overwrite a cell in the arena. -/
def setCell (cells : Cells) (c : Nat) (cell : Cell) : Cells :=
  cells.set c cell

/-- Allocate a fresh cell, returning its index. -/
def allocCell (cells : Cells) (cell : Cell) : Cells × Nat :=
  (cells ++ [cell], cells.length)

/-- Fieldwise combination of two struct field lists by a given join
function; lengths must match. -/
def joinFieldsWith
    (f : Cells → TaintedType → TaintedType → Except String (Cells × TaintedType)) :
    Cells → List TaintedType → List TaintedType →
    Except String (Cells × List TaintedType)
  | cells, [], [] => .ok (cells, [])
  | cells, x :: xs, y :: ys =>
      match f cells x y with
      | .error e => .error e
      | .ok (cells1, j) =>
        match joinFieldsWith f cells1 xs ys with
        | .error e => .error e
        | .ok (cells2, js) => .ok (cells2, j :: js)
  | _, _, _ => .error "join: structs of different lengths"

/-- Modelled from the spec (section 4.2): unification of two pointee cells
when two pointers are joined, with the given join function combining the
two pointee contents.  Both cells receive the joined content and the
merged user set, so future updates through either propagate. -/
def unifyCellsWith
    (f : Cells → TaintedType → TaintedType → Except String (Cells × TaintedType))
    (cells : Cells) (c1 c2 : Nat) : Except String (Cells × Nat) :=
  if c1 = c2 then .ok (cells, c1)
  else
    match f cells (cellTyOf cells c1) (cellTyOf cells c2) with
    | .error e => .error e
    | .ok (cells1, j) =>
      let users := (cellOf cells c1).users ++
        ((cellOf cells c2).users.filter (fun u => u ∉ (cellOf cells c1).users))
      .ok (setCell (setCell cells1 c1 ⟨j, users⟩) c2 ⟨j, users⟩, c1)

/-- Modelled from the spec (section 3, Join): the structural join of two
tainted types from the missing `tainted_type.rs`.  Joining two pointers
unifies their cells; mismatched shapes are errors.  `fuel` bounds the
recursion through cell contents. -/
def join : Nat → Cells → TaintedType → TaintedType → Except String (Cells × TaintedType)
  | 0, _, _, _ => .error "join: recursion limit exceeded"
  | Nat.succ n, cells, a, b =>
    match a, b with
    | .untaintedValue, .untaintedValue => .ok (cells, .untaintedValue)
    | .untaintedValue, .taintedValue => .ok (cells, .taintedValue)
    | .taintedValue, .untaintedValue => .ok (cells, .taintedValue)
    | .taintedValue, .taintedValue => .ok (cells, .taintedValue)
    | .untaintedFnPtr, .untaintedFnPtr => .ok (cells, .untaintedFnPtr)
    | .untaintedFnPtr, .taintedFnPtr => .ok (cells, .taintedFnPtr)
    | .taintedFnPtr, .untaintedFnPtr => .ok (cells, .taintedFnPtr)
    | .taintedFnPtr, .taintedFnPtr => .ok (cells, .taintedFnPtr)
    | .untaintedPointer c1, .untaintedPointer c2 =>
        match unifyCellsWith (fun cs x y => join n cs x y) cells c1 c2 with
        | .error e => .error e
        | .ok (cells1, c) => .ok (cells1, .untaintedPointer c)
    | .untaintedPointer c1, .taintedPointer c2 =>
        match unifyCellsWith (fun cs x y => join n cs x y) cells c1 c2 with
        | .error e => .error e
        | .ok (cells1, c) => .ok (cells1, .taintedPointer c)
    | .taintedPointer c1, .untaintedPointer c2 =>
        match unifyCellsWith (fun cs x y => join n cs x y) cells c1 c2 with
        | .error e => .error e
        | .ok (cells1, c) => .ok (cells1, .taintedPointer c)
    | .taintedPointer c1, .taintedPointer c2 =>
        match unifyCellsWith (fun cs x y => join n cs x y) cells c1 c2 with
        | .error e => .error e
        | .ok (cells1, c) => .ok (cells1, .taintedPointer c)
    | .arrayOrVector e1, .arrayOrVector e2 =>
        match join n cells e1 e2 with
        | .error e => .error e
        | .ok (cells1, j) => .ok (cells1, .arrayOrVector j)
    | .struct f1, .struct f2 =>
        match joinFieldsWith (fun cs x y => join n cs x y) cells f1 f2 with
        | .error e => .error e
        | .ok (cells1, fs) => .ok (cells1, .struct fs)
    | .namedStruct n1, .namedStruct n2 =>
        if n1 = n2 then .ok (cells, .namedStruct n1)
        else .error "join: mismatched named structs"
    | _, _ => .error "join: mismatched types"

/-- Left fold of `join` over a list, as in the source's Phi handling. -/
def joinMany (fuel : Nat) (cells : Cells) (t : TaintedType) :
    List TaintedType → Except String (Cells × TaintedType)
  | [] => .ok (cells, t)
  | x :: xs =>
      match join fuel cells t x with
      | .error e => .error e
      | .ok (cells', j) => joinMany fuel cells' j xs

/-- The LLVM types our embedding needs (the llvm-ir data model is an
external collaborator; only the shapes exercised by the analysis core are
modelled). -/
inductive LlvmType where
  | voidType : LlvmType
  | intType : LlvmType
  | ptrType (pointee : LlvmType) : LlvmType
  | arrType (elem : LlvmType) : LlvmType
  | funcType : LlvmType
  | namedStructType (name : String) : LlvmType

/-- Modelled from the spec (section 4.1): `TaintedType::from_llvm_type` of
the missing `tainted_type.rs` builds the wholly-untainted structural type;
a pointer gets a fresh cell holding the recursive construction. -/
def fromLlvmType (cells : Cells) : LlvmType → Cells × TaintedType
  | .voidType => (cells, .untaintedValue)
  | .intType => (cells, .untaintedValue)
  | .funcType => (cells, .untaintedFnPtr)
  | .namedStructType name => (cells, .namedStruct name)
  | .arrType e =>
      let (cells1, inner) := fromLlvmType cells e
      (cells1, .arrayOrVector inner)
  | .ptrType p =>
      let (cells1, inner) := fromLlvmType cells p
      let (cells2, c) := allocCell cells1 ⟨inner, []⟩
      (cells2, .untaintedPointer c)

/-- The taint upgrade of a list of struct fields by a given upgrade
function. -/
def toTaintedFieldsWith
    (f : Structs → WL → TaintedType → Except String (Structs × WL × TaintedType)) :
    Structs → WL → List TaintedType →
    Except String (Structs × WL × List TaintedType)
  | structs, wl, [] => .ok (structs, wl, [])
  | structs, wl, x :: xs =>
      match f structs wl x with
      | .error m => .error m
      | .ok (structs1, wl1, x1) =>
        match toTaintedFieldsWith f structs1 wl1 xs with
        | .error m => .error m
        | .ok (structs2, wl2, xs1) => .ok (structs2, wl2, x1 :: xs1)

/-- Modelled from the spec (sections 4.1 and 4.3): `to_tainted` flips every
scalar, pointer and function-pointer tag to tainted, recurses into array
elements and struct fields, and for a named struct upgrades the canonical
entry, enqueuing the entry users when the entry strictly increased.
`fuel` bounds the recursion through table entries. -/
def toTainted : Nat → Structs → WL → TaintedType → Except String (Structs × WL × TaintedType)
  | 0, _, _, _ => .error "to_tainted: recursion limit exceeded"
  | Nat.succ n, structs, wl, t =>
    match t with
    | .untaintedValue => .ok (structs, wl, .taintedValue)
    | .taintedValue => .ok (structs, wl, .taintedValue)
    | .untaintedFnPtr => .ok (structs, wl, .taintedFnPtr)
    | .taintedFnPtr => .ok (structs, wl, .taintedFnPtr)
    | .untaintedPointer c => .ok (structs, wl, .taintedPointer c)
    | .taintedPointer c => .ok (structs, wl, .taintedPointer c)
    | .arrayOrVector e =>
        match toTainted n structs wl e with
        | .error m => .error m
        | .ok (structs1, wl1, e1) => .ok (structs1, wl1, .arrayOrVector e1)
    | .struct fields =>
        match toTaintedFieldsWith (fun s w x => toTainted n s w x) structs wl fields with
        | .error m => .error m
        | .ok (structs1, wl1, fs) => .ok (structs1, wl1, .struct fs)
    | .namedStruct name =>
        match lookupS name structs with
        | none => .ok (structs, wl, .namedStruct name)
        | some entry =>
          match toTainted n structs wl entry.ty with
          | .error m => .error m
          | .ok (structs1, wl1, ty1) =>
            if tteq ty1 entry.ty then .ok (structs1, wl1, .namedStruct name)
            else
              .ok (setEntry structs1 name ⟨ty1, entry.users⟩,
                   entry.users.foldl wlAdd wl1, .namedStruct name)

/-- Taintedness of a list of struct fields by a given taintedness
function: tainted iff some field is. -/
def anyFieldWith (f : Structs → TaintedType → Except String (Structs × Bool)) :
    Structs → List TaintedType → Except String (Structs × Bool)
  | structs, [] => .ok (structs, false)
  | structs, x :: xs =>
      match f structs x with
      | .error m => .error m
      | .ok (structs1, b) =>
          if b then .ok (structs1, true) else anyFieldWith f structs1 xs

/-- Modelled from the spec (section 4.3): `is_type_tainted` of the missing
`named_structs.rs`.  Scalars, pointers and function pointers read their
tag; an aggregate is tainted iff any field is; a named struct consults
the canonical entry, registering `curFn` as a user. -/
def isTypeTainted : Nat → Structs → String → TaintedType → Except String (Structs × Bool)
  | 0, _, _, _ => .error "is_type_tainted: recursion limit exceeded"
  | Nat.succ n, structs, curFn, t =>
    match t with
    | .untaintedValue => .ok (structs, false)
    | .taintedValue => .ok (structs, true)
    | .untaintedFnPtr => .ok (structs, false)
    | .taintedFnPtr => .ok (structs, true)
    | .untaintedPointer _ => .ok (structs, false)
    | .taintedPointer _ => .ok (structs, true)
    | .arrayOrVector e => isTypeTainted n structs curFn e
    | .struct fields => anyFieldWith (fun s x => isTypeTainted n s curFn x) structs fields
    | .namedStruct name =>
        match lookupS name structs with
        | none => .ok (structs, false)
        | some entry =>
            let structs1 :=
              if curFn ∈ entry.users then structs
              else setEntry structs name ⟨entry.ty, curFn :: entry.users⟩
            isTypeTainted n structs1 curFn entry.ty

/-- Modelled from the spec (section 4.2): `Pointee::update`.  Join the new
type into the cell content; on a strict increase, store the join and
enqueue every user of the cell on the worklist. -/
def updateCellCore (fuel : Nat) (cells : Cells) (wl : WL) (c : Nat) (newTy : TaintedType) :
    Except String (Cells × WL × Bool) :=
  let cur := cellTyOf cells c
  match join fuel cells cur newTy with
  | .error m => .error m
  | .ok (cells1, j) =>
      if tteq j cur then .ok (cells1, wl, false)
      else
        let users := (cellOf cells1 c).users
        .ok (setCell cells1 c ⟨j, users⟩, users.foldl wlAdd wl, true)

/-- Modelled from the spec (section 4.2): `Pointee::taint`, equivalent to
`update(to_tainted(current))`. -/
def taintCell (fuel : Nat) (cells : Cells) (structs : Structs) (wl : WL) (c : Nat) :
    Except String (Cells × Structs × WL) :=
  let cur := cellTyOf cells c
  match toTainted fuel structs wl cur with
  | .error m => .error m
  | .ok (structs1, wl1, tv) =>
    match updateCellCore fuel cells wl1 c tv with
    | .error m => .error m
    | .ok (cells1, wl2, _) => .ok (cells1, structs1, wl2)

/-- Modelled from the spec (section 3): the per-function taint state of the
missing `function_taint_state.rs`: the variable map and the set of blocks
whose terminator is tainted. -/
structure FunctionTaintState where
  vars : List (String × TaintedType)
  taintedTerms : List String

/-- An LLVM operand: either a local variable or a constant carrying the
tainted type computed for it (spec section 4.5: constants are computed
recursively from their structure; the model carries the result). -/
inductive Operand where
  | localOp (name : String) : Operand
  | constOp (ty : TaintedType) : Operand

/-- Modelled from the spec (section 4.5): `get_type_of_operand`: variables
are looked up in the map, failing when absent; constants yield their
computed type. -/
def getTypeOfOperand (fts : FunctionTaintState) : Operand → Except String TaintedType
  | .localOp n =>
      match lookupS n fts.vars with
      | some t => .ok t
      | none => .error "get_type_of_operand: variable not found"
  | .constOp t => .ok t

/-- Modelled from the spec (section 4.5): `update_var_taintedtype`: insert
when absent (a change); otherwise join, reporting a change on a strict
increase. -/
def updateVarFts (fuel : Nat) (cells : Cells) (fts : FunctionTaintState)
    (name : String) (ty : TaintedType) :
    Except String (Cells × FunctionTaintState × Bool) :=
  match lookupS name fts.vars with
  | none => .ok (cells, { fts with vars := setEntry fts.vars name ty }, true)
  | some cur =>
    match join fuel cells cur ty with
    | .error m => .error m
    | .ok (cells1, j) =>
        if tteq j cur then .ok (cells1, fts, false)
        else .ok (cells1, { fts with vars := setEntry fts.vars name j }, true)

/-- Modelled from the spec (section 4.5): `mark_terminator_tainted`,
returning whether the bit was newly set. -/
def markTerminatorTainted (fts : FunctionTaintState) (block : String) :
    FunctionTaintState × Bool :=
  if block ∈ fts.taintedTerms then (fts, false)
  else ({ fts with taintedTerms := block :: fts.taintedTerms }, true)

/-- Modelled from the spec (section 4.6): a function summary of the missing
`function_summary.rs`: parameter tainted types and the optional return
type (`none` for void). -/
structure FunctionSummary where
  params : List TaintedType
  ret : Option TaintedType

/-- Pointwise join of the summary parameters against new types, reporting
whether any strictly increased. -/
def joinParamLists (fuel : Nat) : Cells → List TaintedType → List TaintedType →
    Except String (Cells × List TaintedType × Bool)
  | cells, [], [] => .ok (cells, [], false)
  | cells, x :: xs, y :: ys =>
      match join fuel cells x y with
      | .error m => .error m
      | .ok (cells1, j) =>
        match joinParamLists fuel cells1 xs ys with
        | .error m => .error m
        | .ok (cells2, js, ch) => .ok (cells2, j :: js, (!tteq j x) || ch)
  | _, _, _ => .error "update_params: mismatched number of parameters"

/-- Modelled from the spec (section 4.6): `FunctionSummary::update_params`:
pointwise join, reporting a change when any parameter strictly increased. -/
def updateParams (fuel : Nat) (cells : Cells) (s : FunctionSummary)
    (newParams : List TaintedType) :
    Except String (Cells × FunctionSummary × Bool) :=
  match joinParamLists fuel cells s.params newParams with
  | .error m => .error m
  | .ok (cells1, ps, ch) => .ok (cells1, { s with params := ps }, ch)

/-- Modelled from the spec (section 4.6): `FunctionSummary::update_ret`:
join into the return slot; `none` is the void sentinel and never changes. -/
def updateRet (fuel : Nat) (cells : Cells) (s : FunctionSummary)
    (newRet : Option TaintedType) :
    Except String (Cells × FunctionSummary × Bool) :=
  match s.ret, newRet with
  | none, _ => .ok (cells, s, false)
  | some _, none => .ok (cells, s, false)
  | some r, some nr =>
    match join fuel cells r nr with
    | .error m => .error m
    | .ok (cells1, j) =>
        if tteq j r then .ok (cells1, s, false)
        else .ok (cells1, { s with ret := some j }, true)

/-- Modelled from the spec (section 4.6): `FunctionSummary::taint_ret`:
upgrade the return type to tainted, reporting whether it strictly
increased. -/
def taintRet (fuel : Nat) (structs : Structs) (wl : WL) (s : FunctionSummary) :
    Except String (Structs × WL × FunctionSummary × Bool) :=
  match s.ret with
  | none => .ok (structs, wl, s, false)
  | some r =>
    match toTainted fuel structs wl r with
    | .error m => .error m
    | .ok (structs1, wl1, r1) =>
        .ok (structs1, wl1, { s with ret := some r1 }, !tteq r1 r)

/-- Modelled from the spec (section 4.6): `FunctionSummary::new_untainted`,
built from the LLVM parameter and return types; a void return is `none`. -/
def newUntaintedSummary (cells : Cells) (paramTys : List LlvmType) (retTy : LlvmType) :
    Cells × FunctionSummary :=
  let acc := paramTys.foldl
    (fun (a : Cells × List TaintedType) lt =>
      let ft := fromLlvmType a.1 lt
      (ft.1, a.2 ++ [ft.2]))
    (cells, [])
  match retTy with
  | .voidType => (acc.1, ⟨acc.2, none⟩)
  | rt =>
      let ft := fromLlvmType acc.1 rt
      (ft.1, ⟨acc.2, some ft.2⟩)

/-- The fold of `is_type_tainted` over summary parameters, as in the
`PropagateTaintShallow` branch of `compute`. -/
def anyParamTainted (fuel : Nat) (structs : Structs) (curFn : String) :
    List TaintedType → Except String (Structs × Bool)
  | [] => .ok (structs, false)
  | t :: ts =>
      match isTypeTainted fuel structs curFn t with
      | .error m => .error m
      | .ok (structs1, b) =>
          if b then .ok (structs1, true) else anyParamTainted fuel structs1 curFn ts

/-- `str::starts_with`, written so that it evaluates by kernel
reduction. -/
def strStartsWith (s pre : String) : Bool :=
  pre.data.isPrefixOf s.data

/-- How to treat a call of an external function (`config.rs`:
`ExternalFunctionHandling`). -/
inductive ExtFunctionHandling where
  | ignoreAndReturnUntainted : ExtFunctionHandling
  | ignoreAndReturnTainted : ExtFunctionHandling
  | propagateTaintShallow : ExtFunctionHandling
  | propagateTaintDeep : ExtFunctionHandling
  | panicPolicy : ExtFunctionHandling

/-- The analysis configuration (`config.rs`: `Config`). -/
structure Config where
  extFunctions : List (String × ExtFunctionHandling)
  extFunctionsDefault : ExtFunctionHandling
  dereferencingTaintedPtrGivesTainted : Bool

/-- A direct call instruction by global name, with argument operands paired
with their LLVM types, the optional destination variable, and the LLVM
type of the call result (`cur_mod.type_of(call)`). -/
structure CallInst where
  funcName : String
  arguments : List (Operand × LlvmType)
  dest : Option String
  retLlvmTy : LlvmType

/-- The LLVM instructions exercised by the claims (the source handles the
remaining forms analogously or rejects them). -/
inductive Instruction where
  | binaryOp (operand0 operand1 : Operand) (result : String) : Instruction
  | phi (incoming : List (Operand × String)) (result : String) : Instruction
  | load (address : Operand) (result : String) : Instruction
  | store (address value : Operand) : Instruction
  | call (c : CallInst) : Instruction

/-- The LLVM terminators handled by `process_terminator`. -/
inductive Terminator where
  | ret (returnOperand : Option Operand) : Terminator
  | condBr (condition : Operand) : Terminator
  | switch (operand : Operand) : Terminator
  | indirectBr (operand : Operand) : Terminator
  | br : Terminator
  | unreachable : Terminator

/-- An LLVM basic block. -/
structure BasicBlock where
  name : String
  instrs : List Instruction
  term : Terminator

/-- An LLVM function parameter. -/
structure Parameter where
  name : String
  ty : LlvmType

/-- An LLVM function definition. -/
structure Function where
  name : String
  parameters : List Parameter
  returnType : LlvmType
  basicBlocks : List BasicBlock

/-- The immutable context: the defined functions, the call graph (callers
of a function), the per-function control-dependence graph (for a block,
the blocks it is control-dependent on) and the configuration.  These are
the external `CrossModuleAnalysis` collaborator and the `Config`. -/
structure Ctx where
  funcs : List Function
  callers : String → List String
  cdg : String → String → List String
  config : Config

/-- `CrossModuleAnalysis::get_func_by_name`. -/
def getFuncByName (ctx : Ctx) (name : String) : Option Function :=
  ctx.funcs.find? (fun f => f.name == name)

/-- How a transfer function aborts: an analysis error (`Err` in the
source) or a Rust panic. -/
inductive AnalysisAbort where
  | err (msg : String) : AnalysisAbort
  | panicked (msg : String) : AnalysisAbort

/-- Lift a `Result` with a string error into the abort monad. -/
def liftE {α : Type} : Except String α → Except AnalysisAbort α
  | .ok a => .ok a
  | .error m => .error (.err m)

/-- The mutable state of `TaintState`: the cell arena, the named-structs
table, the worklist, the per-function taint states, the function
summaries, and the current function and block. -/
structure TState where
  cells : Cells
  structs : Structs
  worklist : WL
  ftsMap : List (String × FunctionTaintState)
  summaries : List (String × FunctionSummary)
  curFn : String
  curBlock : Option String

/-- `FunctionTaintStates::get_current`, which panics when no taint state
exists for the current function. -/
def getCurrentFts (st : TState) : Except AnalysisAbort FunctionTaintState :=
  match lookupS st.curFn st.ftsMap with
  | some fts => .ok fts
  | none => .error (.panicked "no taint state found for current function")

/-- Store back the taint state of the current function. -/
def setCurrentFts (st : TState) (fts : FunctionTaintState) : TState :=
  { st with ftsMap := setEntry st.ftsMap st.curFn fts }

/-- The unwrap of `self.cur_block`. -/
def curBlockE (st : TState) : Except AnalysisAbort String :=
  match st.curBlock with
  | some b => .ok b
  | none => .error (.panicked "current block is not set")

/-- `update_var_taintedtype` on the current function's taint state. -/
def stUpdateVar (fuel : Nat) (st : TState) (name : String) (ty : TaintedType) :
    Except AnalysisAbort (TState × Bool) :=
  match getCurrentFts st with
  | .error a => .error a
  | .ok fts =>
    match updateVarFts fuel st.cells fts name ty with
    | .error m => .error (.err m)
    | .ok (cells, fts1, ch) => .ok (setCurrentFts { st with cells := cells } fts1, ch)

/-- `update_pointee_taintedtype` on the current function's taint state,
delegating to the cell update. -/
def stUpdatePointee (fuel : Nat) (st : TState) (c : Nat) (ty : TaintedType) :
    Except AnalysisAbort (TState × Bool) :=
  match getCurrentFts st with
  | .error a => .error a
  | .ok _ =>
    match updateCellCore fuel st.cells st.worklist c ty with
    | .error m => .error (.err m)
    | .ok (cells, wl, ch) => .ok ({ st with cells := cells, worklist := wl }, ch)

/-- Whether `block` is control-dependent on some block whose terminator is
tainted, read off the control-dependence graph of the current function. -/
def ctrlDepOnTainted (ctx : Ctx) (curFn : String) (fts : FunctionTaintState)
    (block : String) : Bool :=
  (ctx.cdg curFn block).any (fun dep => fts.taintedTerms.contains dep)

/-- `TaintState::get_load_result_ty` (source lines 857-886): the tainted
type of the value loaded from `addr`.  Non-pointers fail; an untainted
pointer reads its cell; a tainted pointer first taints the cell when the
`dereferencing_tainted_ptr_gives_tainted` option is set, then reads. -/
def getLoadResultTy (ctx : Ctx) (fuel : Nat) (st : TState) (addr : TaintedType) :
    Except AnalysisAbort (TState × TaintedType) :=
  match addr with
  | .untaintedValue => .error (.err "Load: address is not a pointer")
  | .taintedValue => .error (.err "Load: address is not a pointer")
  | .untaintedFnPtr => .error (.err "Loading from a function pointer")
  | .taintedFnPtr => .error (.err "Loading from a function pointer")
  | .arrayOrVector _ => .error (.err "Load: address is not a pointer")
  | .struct _ => .error (.err "Load: address is not a pointer")
  | .namedStruct _ => .error (.err "Load: address is not a pointer")
  | .untaintedPointer c => .ok (st, cellTyOf st.cells c)
  | .taintedPointer c =>
      if ctx.config.dereferencingTaintedPtrGivesTainted then
        match taintCell fuel st.cells st.structs st.worklist c with
        | .error m => .error (.err m)
        | .ok (cells, structs, wl) =>
            let st1 := { st with cells := cells, structs := structs, worklist := wl }
            .ok (st1, cellTyOf st1.cells c)
      else .ok (st, cellTyOf st.cells c)

/-- `TaintState::process_store` (source lines 889-932): the store of a
value to an address.  The address must be a data pointer; the pointee
cell is updated with `to_tainted(value)` when the current block is
control-dependent on a block with tainted terminator, and with `value`
otherwise. -/
def processStore (ctx : Ctx) (fuel : Nat) (st : TState) (value addr : TaintedType) :
    Except AnalysisAbort (TState × Bool) :=
  match addr with
  | .untaintedValue => .error (.err "Store: address is not a pointer")
  | .taintedValue => .error (.err "Store: address is not a pointer")
  | .untaintedFnPtr => .error (.err "Storing to a function pointer")
  | .taintedFnPtr => .error (.err "Storing to a function pointer")
  | .arrayOrVector _ => .error (.err "Store: address is not a pointer")
  | .struct _ => .error (.err "Store: address is not a pointer")
  | .namedStruct _ => .error (.err "Store: address is not a pointer")
  | .untaintedPointer c =>
      match getCurrentFts st with
      | .error a => .error a
      | .ok fts =>
        match curBlockE st with
        | .error a => .error a
        | .ok cur =>
          let needToTaint := ctrlDepOnTainted ctx st.curFn fts cur
          if needToTaint then
            match toTainted fuel st.structs st.worklist value with
            | .error m => .error (.err m)
            | .ok (structs, wl, taintedVal) =>
                stUpdatePointee fuel { st with structs := structs, worklist := wl } c taintedVal
          else stUpdatePointee fuel st c value
  | .taintedPointer c =>
      match getCurrentFts st with
      | .error a => .error a
      | .ok fts =>
        match curBlockE st with
        | .error a => .error a
        | .ok cur =>
          let needToTaint := ctrlDepOnTainted ctx st.curFn fts cur
          if needToTaint then
            match toTainted fuel st.structs st.worklist value with
            | .error m => .error (.err m)
            | .ok (structs, wl, taintedVal) =>
                stUpdatePointee fuel { st with structs := structs, worklist := wl } c taintedVal
          else stUpdatePointee fuel st c value

/-- The summary-acquisition step of `process_function_call` (source lines
941-954): get the summary of the called function, or create a starter
untainted one from the call signature, adding the callee to the
worklist. -/
def acquireSummary (st : TState) (c : CallInst) : TState × FunctionSummary :=
  match lookupS c.funcName st.summaries with
  | some s => (st, s)
  | none =>
      let wl := wlAdd st.worklist c.funcName
      let ns := newUntaintedSummary st.cells (c.arguments.map Prod.snd) c.retLlvmTy
      ({ st with worklist := wl, cells := ns.1,
                 summaries := setEntry st.summaries c.funcName ns.2 }, ns.2)

/-- The argument-type step of `process_function_call` (source lines
957-962): the tainted types of the call's argument operands. -/
def callArgTys (st : TState) (c : CallInst) : Except AnalysisAbort (List TaintedType) :=
  match getCurrentFts st with
  | .error a => .error a
  | .ok fts =>
    match c.arguments.mapM (fun a => getTypeOfOperand fts a.1) with
    | .error m => .error (.err m)
    | .ok tys => .ok tys

/-- `TaintState::process_function_call` (source lines 935-982): acquire or
create the callee summary (enqueuing the callee on creation), update the
summary parameters with the argument types (on change, enqueue every
caller of the callee and the callee itself), and update the destination
variable, when present, with the summary return type; the source unwraps
the return type, panicking when it is absent. -/
def processFunctionCall (ctx : Ctx) (fuel : Nat) (st : TState) (c : CallInst) :
    Except AnalysisAbort (TState × Bool) :=
  let acq := acquireSummary st c
  match callArgTys acq.1 c with
  | .error a => .error a
  | .ok tys =>
    match updateParams fuel acq.1.cells acq.2 tys with
    | .error m => .error (.err m)
    | .ok (cells2, s2, chg) =>
      let st2 := { acq.1 with cells := cells2,
                              summaries := setEntry acq.1.summaries c.funcName s2 }
      let wl3 :=
        if chg then
          wlAdd ((ctx.callers c.funcName).foldl wlAdd st2.worklist) c.funcName
        else st2.worklist
      let st3 := { st2 with worklist := wl3 }
      match c.dest with
      | some v =>
        match s2.ret with
        | some r => stUpdateVar fuel st3 v r
        | none => .error (.panicked "unwrap of None")
      | none => .ok (st3, false)

/-- `TaintState::process_instruction` (source lines 442-854), restricted to
the instruction forms of our `Instruction` type. -/
def processInstruction (ctx : Ctx) (fuel : Nat) (st : TState) :
    Instruction → Except AnalysisAbort (TState × Bool)
  | .binaryOp op0 op1 res =>
      match getCurrentFts st with
      | .error a => .error a
      | .ok fts =>
        match getTypeOfOperand fts op0 with
        | .error m => .error (.err m)
        | .ok t0 =>
          match getTypeOfOperand fts op1 with
          | .error m => .error (.err m)
          | .ok t1 =>
            match join fuel st.cells t0 t1 with
            | .error m => .error (.err m)
            | .ok (cells, j) => stUpdateVar fuel { st with cells := cells } res j
  | .phi incoming res =>
      match getCurrentFts st with
      | .error a => .error a
      | .ok fts =>
        match incoming.mapM (fun p => getTypeOfOperand fts p.1) with
        | .error m => .error (.err m)
        | .ok tys =>
          match tys with
          | [] => .error (.panicked "Phi with no incoming values")
          | t :: rest =>
            match joinMany fuel st.cells t rest with
            | .error m => .error (.err m)
            | .ok (cells, joined) =>
              let st1 := { st with cells := cells }
              match curBlockE st1 with
              | .error a => .error a
              | .ok cur =>
                let condCur := ctrlDepOnTainted ctx st1.curFn fts cur
                let condPred := incoming.any (fun p => ctrlDepOnTainted ctx st1.curFn fts p.2)
                match (if condCur then toTainted fuel st1.structs st1.worklist joined
                       else if condPred then toTainted fuel st1.structs st1.worklist joined
                       else .ok (st1.structs, st1.worklist, joined)) with
                | .error m => .error (.err m)
                | .ok (structs, wl, resultTy) =>
                    stUpdateVar fuel { st1 with structs := structs, worklist := wl } res resultTy
  | .load addr res =>
      match getCurrentFts st with
      | .error a => .error a
      | .ok fts =>
        match getTypeOfOperand fts addr with
        | .error m => .error (.err m)
        | .ok addrTy =>
          match getLoadResultTy ctx fuel st addrTy with
          | .error a => .error a
          | .ok (st1, resTy) => stUpdateVar fuel st1 res resTy
  | .store addr value =>
      match getCurrentFts st with
      | .error a => .error a
      | .ok fts =>
        match getTypeOfOperand fts addr with
        | .error m => .error (.err m)
        | .ok addrTy =>
          match getTypeOfOperand fts value with
          | .error m => .error (.err m)
          | .ok valueTy => processStore ctx fuel st valueTy addrTy
  | .call c =>
      if strStartsWith c.funcName "llvm.lifetime"
          || strStartsWith c.funcName "llvm.invariant"
          || strStartsWith c.funcName "llvm.launder.invariant"
          || strStartsWith c.funcName "llvm.strip.invariant"
          || strStartsWith c.funcName "llvm.dbg" then
        .ok (st, false)
      else if strStartsWith c.funcName "llvm.memset" then
        match getCurrentFts st with
        | .error a => .error a
        | .ok fts =>
          match c.arguments.get? 0 with
          | none => .error (.err "Expected llvm.memset to have at least three arguments")
          | some addrArg =>
            match c.arguments.get? 1 with
            | none => .error (.err "Expected llvm.memset to have at least three arguments")
            | some valArg =>
              match getTypeOfOperand fts addrArg.1 with
              | .error m => .error (.err m)
              | .ok addrTy =>
                match getTypeOfOperand fts valArg.1 with
                | .error m => .error (.err m)
                | .ok valTy =>
                  match addrTy with
                  | .untaintedPointer cid => stUpdatePointee fuel st cid valTy
                  | .taintedPointer cid => stUpdatePointee fuel st cid valTy
                  | _ => .error (.err "llvm.memset: expected first argument to be a pointer")
      else processFunctionCall ctx fuel st c

/-- The shared body of the `CondBr`, `Switch` and `IndirectBr` cases of
`process_terminator` (source lines 1024-1053, three verbatim copies in
the source): mark the current block's terminator tainted when the
operand's type is tainted. -/
def taintedCondTerminator (fuel : Nat) (st : TState) (op : Operand) :
    Except AnalysisAbort (TState × Bool) :=
  match getCurrentFts st with
  | .error a => .error a
  | .ok fts =>
    match getTypeOfOperand fts op with
    | .error m => .error (.err m)
    | .ok t =>
      match isTypeTainted fuel st.structs st.curFn t with
      | .error m => .error (.err m)
      | .ok (structs, b) =>
        let st1 := { st with structs := structs }
        if b then
          match getCurrentFts st1 with
          | .error a => .error a
          | .ok fts1 =>
            match curBlockE st1 with
            | .error a => .error a
            | .ok cur =>
              let p := markTerminatorTainted fts1 cur
              .ok (setCurrentFts st1 p.1, p.2)
        else .ok (st1, false)

/-- `TaintState::process_terminator` (source lines 985-1058). -/
def processTerminator (ctx : Ctx) (fuel : Nat) (st : TState) :
    Terminator → Except AnalysisAbort (TState × Bool)
  | .ret retOp =>
      let marked : Except AnalysisAbort (TState × Bool) :=
        match retOp with
        | none => .ok (st, false)
        | some op =>
          match getCurrentFts st with
          | .error a => .error a
          | .ok fts =>
            match getTypeOfOperand fts op with
            | .error m => .error (.err m)
            | .ok t =>
              match isTypeTainted fuel st.structs st.curFn t with
              | .error m => .error (.err m)
              | .ok (structs, b) =>
                let st1 := { st with structs := structs }
                if b then
                  match getCurrentFts st1 with
                  | .error a => .error a
                  | .ok fts1 =>
                    match curBlockE st1 with
                    | .error a => .error a
                    | .ok cur =>
                      let p := markTerminatorTainted fts1 cur
                      .ok (setCurrentFts st1 p.1, p.2)
                else .ok (st1, false)
      match marked with
      | .error a => .error a
      | .ok (st1, changed) =>
        match lookupS st1.curFn st1.summaries with
        | none => .ok (st1, changed)
        | some s =>
          match getCurrentFts st1 with
          | .error a => .error a
          | .ok fts =>
            let tyOpt : Except AnalysisAbort (Option TaintedType) :=
              match retOp with
              | none => .ok none
              | some op =>
                match getTypeOfOperand fts op with
                | .error m => .error (.err m)
                | .ok t => .ok (some t)
            match tyOpt with
            | .error a => .error a
            | .ok newRet =>
              match updateRet fuel st1.cells s newRet with
              | .error m => .error (.err m)
              | .ok (cells, s1, ch2) =>
                let st2 := { st1 with cells := cells,
                                       summaries := setEntry st1.summaries st1.curFn s1 }
                if ch2 then
                  .ok ({ st2 with worklist :=
                          (ctx.callers st2.curFn).foldl wlAdd st2.worklist }, true)
                else .ok (st2, changed)
  | .condBr cond => taintedCondTerminator fuel st cond
  | .switch op => taintedCondTerminator fuel st op
  | .indirectBr op => taintedCondTerminator fuel st op
  | .br => .ok (st, false)
  | .unreachable => .ok (st, false)

/-- The initial variable map of a freshly created `FunctionTaintState`:
each parameter mapped to the untainted structural type of its LLVM type
(source lines 357-371). -/
def paramsTaintMap (cells : Cells) (params : List Parameter) :
    Cells × List (String × TaintedType) :=
  params.foldl
    (fun (acc : Cells × List (String × TaintedType)) p =>
      let (c1, t) := fromLlvmType acc.1 p.ty
      (c1, acc.2 ++ [(p.name, t)]))
    (cells, [])

/-- The mirroring of summary parameter types into the function's variable
map (source lines 388-399); the per-variable change reports are
deliberately discarded by the source. -/
def mirrorParamsIntoVars (fuel : Nat) (st : TState) :
    List (Parameter × TaintedType) → Except AnalysisAbort TState
  | [] => .ok st
  | (p, ty) :: rest =>
      match stUpdateVar fuel st p.name ty with
      | .error a => .error a
      | .ok (st1, _) => mirrorParamsIntoVars fuel st1 rest

/-- Reading the parameter variables back out of the variable map (source
lines 401-405); the source expects them to be present, panicking
otherwise. -/
def paramTysFromVars (fts : FunctionTaintState) :
    List Parameter → Except AnalysisAbort (List TaintedType)
  | [] => .ok []
  | p :: rest =>
      match lookupS p.name fts.vars with
      | none => .error (.panicked "just inserted these, so they should exist")
      | some t =>
        match paramTysFromVars fts rest with
        | .error a => .error a
        | .ok ts => .ok (t :: ts)

/-- `process_function`, preparation phase (source lines 344-413): set the
current function, create the taint state and summary when missing,
mirror summary parameters into the variable map (discarding the change
reports), mirror the parameter variables back into the summary, and on a
summary change enqueue all callers. -/
def prepFunction (ctx : Ctx) (fuel : Nat) (st : TState) (f : Function) :
    Except AnalysisAbort TState :=
  let st0 := { st with curFn := f.name }
  let st1 :=
    match lookupS f.name st0.ftsMap with
    | some _ => st0
    | none =>
        let (cells, vars) := paramsTaintMap st0.cells f.parameters
        { st0 with cells := cells,
                   ftsMap := setEntry st0.ftsMap f.name ⟨vars, []⟩ }
  let acq : TState × FunctionSummary :=
    match lookupS f.name st1.summaries with
    | some s => (st1, s)
    | none =>
        let (cells, s) := newUntaintedSummary st1.cells (f.parameters.map Parameter.ty)
          f.returnType
        ({ st1 with cells := cells,
                    summaries := setEntry st1.summaries f.name s }, s)
  if f.parameters.length = acq.2.params.length then
    match mirrorParamsIntoVars fuel acq.1 (f.parameters.zip acq.2.params) with
    | .error a => .error a
    | .ok st2 =>
      match getCurrentFts st2 with
      | .error a => .error a
      | .ok fts =>
        match paramTysFromVars fts f.parameters with
        | .error a => .error a
        | .ok ptys =>
          match updateParams fuel st2.cells acq.2 ptys with
          | .error m => .error (.err m)
          | .ok (cells, s2, chg) =>
            let st3 := { st2 with cells := cells,
                                  summaries := setEntry st2.summaries f.name s2 }
            let wl4 :=
              if chg then (ctx.callers f.name).foldl wlAdd st3.worklist
              else st3.worklist
            .ok { st3 with worklist := wl4 }
  else .error (.panicked "zip_eq: iterators of different lengths")

/-- The instruction loop of a single basic block (source lines 419-426),
accumulating the change flag. -/
def processInstrs (ctx : Ctx) (fuel : Nat) :
    TState → List Instruction → Bool → Except AnalysisAbort (TState × Bool)
  | st, [], changed => .ok (st, changed)
  | st, i :: rest, changed =>
      match processInstruction ctx fuel st i with
      | .error a => .error a
      | .ok (st1, ch) => processInstrs ctx fuel st1 rest (changed || ch)

/-- The basic-block loop of `process_function` (source lines 416-433):
set the current block, process the instructions and the terminator, and
accumulate the change flag. -/
def processBlocks (ctx : Ctx) (fuel : Nat) :
    TState → List BasicBlock → Bool → Except AnalysisAbort (TState × Bool)
  | st, [], changed => .ok (st, changed)
  | st, bb :: rest, changed =>
      let st0 := { st with curBlock := some bb.name }
      match processInstrs ctx fuel st0 bb.instrs changed with
      | .error a => .error a
      | .ok (st1, ch1) =>
        match processTerminator ctx fuel st1 bb.term with
        | .error a => .error a
        | .ok (st2, ch2) => processBlocks ctx fuel st2 rest (ch1 || ch2)

/-- `TaintState::process_function` (source lines 344-436): the preparation
phase followed by one pass over all basic blocks; the returned change
flag comes from the instruction and terminator processing alone. -/
def processFunction (ctx : Ctx) (fuel : Nat) (st : TState) (f : Function) :
    Except AnalysisAbort (TState × Bool) :=
  match prepFunction ctx fuel st f with
  | .error a => .error a
  | .ok stP =>
    match processBlocks ctx fuel stP f.basicBlocks false with
    | .error a => .error a
    | .ok (stB, changed) => .ok ({ stB with curBlock := none }, changed)

/-- The external-function branch of `TaintState::compute` (source lines
264-308): consult the configured policy for a popped function that is
not defined in the available modules. -/
def handleExtFunction (ctx : Ctx) (fuel : Nat) (st : TState) (fnName : String) :
    Except AnalysisAbort (TState × Bool) :=
  let handling := (lookupS fnName ctx.config.extFunctions).getD
    ctx.config.extFunctionsDefault
  match handling with
  | .ignoreAndReturnUntainted => .ok (st, false)
  | .ignoreAndReturnTainted =>
      match lookupS fnName st.summaries with
      | none =>
          .error (.panicked "Internal invariant violated: external function on the worklist has no summary")
      | some s =>
        match taintRet fuel st.structs st.worklist s with
        | .error m => .error (.err m)
        | .ok (structs, wl, s1, ch) =>
            .ok ({ st with structs := structs,
                           worklist := wl,
                           summaries := setEntry st.summaries fnName s1 }, ch)
  | .propagateTaintShallow =>
      match lookupS fnName st.summaries with
      | none =>
          .error (.panicked "Internal invariant violated: external function on the worklist has no summary")
      | some s =>
        match anyParamTainted fuel st.structs st.curFn s.params with
        | .error m => .error (.err m)
        | .ok (structs1, anyT) =>
          if anyT then
            match taintRet fuel structs1 st.worklist s with
            | .error m => .error (.err m)
            | .ok (structs2, wl, s1, ch) =>
                .ok ({ st with structs := structs2,
                               worklist := wl,
                               summaries := setEntry st.summaries fnName s1 }, ch)
          else .ok ({ st with structs := structs1 }, false)
  | .propagateTaintDeep =>
      .error (.panicked "ExternalFunctionHandling PropagateTaintDeep is unimplemented")
  | .panicPolicy =>
      .error (.panicked "Call of a function not found in the module")

/-- The outcome of the fixpoint loop: normal completion, a panic, or
exhaustion of the loop fuel (never reached in the runs we consider). -/
inductive ComputeOut where
  | finished (st : TState) : ComputeOut
  | aborted (a : AnalysisAbort) : ComputeOut
  | fuelOut : ComputeOut

/-- `TaintState::compute` (source lines 235-318): pop a function from the
worklist; process it when defined, otherwise apply the external policy;
count every changed pop in `iter_ctr` and panic with the message
`Infinite analysis` when the counter reaches 8; on a change, re-add the
popped function.  Analysis errors from `process_function` are turned
into panics by the source. -/
def computeLoop (ctx : Ctx) (fuel : Nat) : Nat → TState → Nat → ComputeOut
  | 0, _, _ => .fuelOut
  | Nat.succ n, st, iterCtr =>
    match wlPop st.worklist with
    | none => .finished st
    | some (fnName, rest) =>
      let st0 := { st with worklist := rest }
      let res :=
        match getFuncByName ctx fnName with
        | some f =>
          match processFunction ctx fuel st0 f with
          | .error (.err m) =>
              Except.error (AnalysisAbort.panicked ("in function " ++ fnName ++ ": " ++ m))
          | .error (.panicked m) => Except.error (AnalysisAbort.panicked m)
          | .ok r => Except.ok r
        | none => handleExtFunction ctx fuel st0 fnName
      match res with
      | .error a => .aborted a
      | .ok (st1, changed) =>
        if changed then
          let iterCtr1 := iterCtr + 1
          if 8 ≤ iterCtr1 then .aborted (.panicked "Infinite analysis")
          else computeLoop ctx fuel n { st1 with worklist := wlAdd st1.worklist fnName } iterCtr1
        else computeLoop ctx fuel n st1 iterCtr

/-- `TaintState::compute`, entered with a zero change counter. -/
def compute (ctx : Ctx) (fuel loopFuel : Nat) (st : TState) : ComputeOut :=
  computeLoop ctx fuel loopFuel st 0

/-- Whether a tainted type is a data pointer. -/
def isDataPtr : TaintedType → Bool
  | .untaintedPointer _ => true
  | .taintedPointer _ => true
  | _ => false

/-- Whether a transfer-function outcome is an analysis error (a Rust
`Err`, not a panic). -/
def isErrStr {α : Type} : Except AnalysisAbort α → Bool
  | .error (.err _) => true
  | _ => false

/-- Claim C3, stated as the spec words it: for a store through a data
pointer, compute whether any block the current block is control-dependent
on has a tainted terminator; if so, update the pointee cell with
`to_tainted(value)`, otherwise update it with `value`. -/
def storeClaimC3 (ctx : Ctx) (fuel : Nat) (st : TState) (value : TaintedType) (c : Nat) :
    Except AnalysisAbort (TState × Bool) :=
  match getCurrentFts st with
  | .error a => .error a
  | .ok fts =>
    match curBlockE st with
    | .error a => .error a
    | .ok cur =>
      let needToTaint := ctrlDepOnTainted ctx st.curFn fts cur
      if needToTaint then
        match toTainted fuel st.structs st.worklist value with
        | .error m => .error (.err m)
        | .ok (structs, wl, taintedVal) =>
            stUpdatePointee fuel { st with structs := structs, worklist := wl } c taintedVal
      else stUpdatePointee fuel st c value

/-- Claim C4, stated as the spec words it: the Phi result is the join of
all incoming tainted types, upgraded to tainted when the current block or
any incoming predecessor block is control-dependent on some block whose
terminator is marked tainted; the result is then `update_var`d. -/
def phiClaimC4 (ctx : Ctx) (fuel : Nat) (st : TState)
    (incoming : List (Operand × String)) (res : String) :
    Except AnalysisAbort (TState × Bool) :=
  match getCurrentFts st with
  | .error a => .error a
  | .ok fts =>
    match incoming.mapM (fun p => getTypeOfOperand fts p.1) with
    | .error m => .error (.err m)
    | .ok tys =>
      match tys with
      | [] => .error (.panicked "Phi with no incoming values")
      | t :: rest =>
        match joinMany fuel st.cells t rest with
        | .error m => .error (.err m)
        | .ok (cells, joined) =>
          let st1 := { st with cells := cells }
          match curBlockE st1 with
          | .error a => .error a
          | .ok cur =>
            let condCur := ctrlDepOnTainted ctx st1.curFn fts cur
            let condPred := incoming.any (fun p => ctrlDepOnTainted ctx st1.curFn fts p.2)
            match (if condCur || condPred then toTainted fuel st1.structs st1.worklist joined
                   else .ok (st1.structs, st1.worklist, joined)) with
            | .error m => .error (.err m)
            | .ok (structs, wl, resultTy) =>
                stUpdateVar fuel { st1 with structs := structs, worklist := wl } res resultTy

/-- Claim C5, stated as the spec words it, for a `TaintedPointer` address:
the result is the cell's pointee type, with the cell first upgraded to
tainted exactly when `dereferencing_tainted_ptr_gives_tainted` is set. -/
def loadClaimC5 (ctx : Ctx) (fuel : Nat) (st : TState) (c : Nat) :
    Except AnalysisAbort (TState × TaintedType) :=
  if ctx.config.dereferencingTaintedPtrGivesTainted then
    match taintCell fuel st.cells st.structs st.worklist c with
    | .error m => .error (.err m)
    | .ok (cells, structs, wl) =>
        let st1 := { st with cells := cells, structs := structs, worklist := wl }
        .ok (st1, cellTyOf st1.cells c)
  else .ok (st, cellTyOf st.cells c)

/-- Claim C8, stated as the spec words it: for a conditional terminator,
the current block is marked terminator-tainted exactly when the operand's
tainted type is tainted; an untainted operand changes no terminator
bit. -/
def termClaimC8 (fuel : Nat) (st : TState) (op : Operand) :
    Except AnalysisAbort (TState × Bool) :=
  match getCurrentFts st with
  | .error a => .error a
  | .ok fts =>
    match getTypeOfOperand fts op with
    | .error m => .error (.err m)
    | .ok t =>
      match isTypeTainted fuel st.structs st.curFn t with
      | .error m => .error (.err m)
      | .ok (structs, b) =>
        let st1 := { st with structs := structs }
        if b then
          match getCurrentFts st1 with
          | .error a => .error a
          | .ok fts1 =>
            match curBlockE st1 with
            | .error a => .error a
            | .ok cur =>
              let p := markTerminatorTainted fts1 cur
              .ok (setCurrentFts st1 p.1, p.2)
        else .ok (st1, false)

/-- Claim C2 as amended: a direct call of a function whose name begins with
`llvm.memset` updates the destination pointer's pointee cell with the
value operand's tainted type directly, with no implicit-flow
(control-dependence) upgrade. -/
def memsetClaimC2 (fuel : Nat) (st : TState) (c : CallInst) :
    Except AnalysisAbort (TState × Bool) :=
  match getCurrentFts st with
  | .error a => .error a
  | .ok fts =>
    match c.arguments.get? 0 with
    | none => .error (.err "Expected llvm.memset to have at least three arguments")
    | some addrArg =>
      match c.arguments.get? 1 with
      | none => .error (.err "Expected llvm.memset to have at least three arguments")
      | some valArg =>
        match getTypeOfOperand fts addrArg.1 with
        | .error m => .error (.err m)
        | .ok addrTy =>
          match getTypeOfOperand fts valArg.1 with
          | .error m => .error (.err m)
          | .ok valTy =>
            match addrTy with
            | .untaintedPointer cid => stUpdatePointee fuel st cid valTy
            | .taintedPointer cid => stUpdatePointee fuel st cid valTy
            | _ => .error (.err "llvm.memset: expected first argument to be a pointer")

/-- Claim C7, stated as the spec words it: under `PropagateTaintShallow`,
the summary's return type is upgraded to tainted when any summary
parameter type is tainted, and nothing is changed otherwise. -/
def shallowClaimC7 (fuel : Nat) (st : TState) (fnName : String) (s : FunctionSummary) :
    Except AnalysisAbort (TState × Bool) :=
  match anyParamTainted fuel st.structs st.curFn s.params with
  | .error m => .error (.err m)
  | .ok (structs1, anyT) =>
    if anyT then
      match taintRet fuel structs1 st.worklist s with
      | .error m => .error (.err m)
      | .ok (structs2, wl, s1, ch) =>
          .ok ({ st with structs := structs2,
                         worklist := wl,
                         summaries := setEntry st.summaries fnName s1 }, ch)
    else .ok ({ st with structs := structs1 }, false)

/-- Whether the call's destination, if any, will find a summary return
type: for an existing callee summary its return slot, for a fresh one
the voidness of the call's LLVM result type. -/
def retPresent (st : TState) (c : CallInst) : Bool :=
  match lookupS c.funcName st.summaries with
  | some s => s.ret.isSome
  | none =>
    match c.retLlvmTy with
    | .voidType => false
    | _ => true

/-- The worklist of a successful call-processing outcome. -/
def wlOfCall (r : Except AnalysisAbort (TState × Bool)) : WL :=
  match r with
  | .ok (st, _) => st.worklist
  | _ => []

/-- Whether an outcome is a success. -/
def exOk {α : Type} : Except AnalysisAbort α → Bool
  | .ok _ => true
  | _ => false

/-- Whether the fixpoint loop finished normally. -/
def isFinished : ComputeOut → Bool
  | .finished _ => true
  | _ => false

/-- A configuration with no per-function policies, the
ignore-and-return-untainted default, and tainted dereferencing off. -/
def cfgU : Config := ⟨[], .ignoreAndReturnUntainted, false⟩

/-- A function with no parameters and one block whose single instruction
defines a fresh variable from two untainted constants; its first pass
reports a change (the fresh insertion), later passes do not. -/
def mkAddFn (n : String) : Function :=
  ⟨n, [], .voidType,
   [⟨"entry", [.binaryOp (.constOp .untaintedValue) (.constOp .untaintedValue) "y"],
    .unreachable⟩]⟩

/-- Eight independent trivial functions. -/
def ctxC1 : Ctx :=
  ⟨["f0", "f1", "f2", "f3", "f4", "f5", "f6", "f7"].map mkAddFn,
   fun _ => [], fun _ _ => [], cfgU⟩

/-- Seven independent trivial functions. -/
def ctxC1b : Ctx :=
  ⟨["f0", "f1", "f2", "f3", "f4", "f5", "f6"].map mkAddFn,
   fun _ => [], fun _ _ => [], cfgU⟩

/-- An empty analysis state over a given initial worklist. -/
def stEmpty (wl : WL) : TState := ⟨[], [], wl, [], [], "", none⟩

/-- The initial state for the eight-function run. -/
def stC1 : TState := stEmpty ["f0", "f1", "f2", "f3", "f4", "f5", "f6", "f7"]

/-- The initial state for the seven-function run. -/
def stC1b : TState := stEmpty ["f0", "f1", "f2", "f3", "f4", "f5", "f6"]

/-- The taint state of function `f` in the memset counterexample: a
pointer variable into cell 0, an untainted scalar variable, and block `a`
marked terminator-tainted. -/
def ftsC2 : FunctionTaintState :=
  ⟨[("p", .untaintedPointer 0), ("v", .untaintedValue)], ["a"]⟩

/-- Context for the memset counterexample: block `bb` is
control-dependent on block `a`. -/
def ctxC2 : Ctx :=
  ⟨[], fun _ => [], fun _ blk => if blk = "bb" then ["a"] else [], cfgU⟩

/-- State for the memset counterexample: current block `bb` of function
`f`, cell 0 untainted. -/
def stC2 : TState :=
  ⟨[⟨.untaintedValue, []⟩], [], [], [("f", ftsC2)], [], "f", some "bb"⟩

/-- The memset call of the counterexample: it stores the untainted scalar
`v` through pointer `p` inside a block control-dependent on the
tainted-terminator block `a`. -/
def memsetC2 : CallInst :=
  ⟨"llvm.memset.p0i8.i64",
   [(.localOp "p", .ptrType .intType), (.localOp "v", .intType),
    (.constOp .untaintedValue, .intType)],
   none, .voidType⟩

/-- Trivial context used by concrete witnesses. -/
def ctxW : Ctx := ⟨[], fun _ => [], fun _ _ => [], cfgU⟩

/-- Concrete state for the store witness. -/
def stW3 : TState := ⟨[⟨.untaintedValue, []⟩], [], [], [("f", ⟨[], []⟩)], [], "f", some "b"⟩

/-- Concrete caller context for the call witness: `f` is the lone caller
of `g`. -/
def ctxW6 : Ctx :=
  ⟨[], fun n => if n = "g" then ["f"] else [], fun _ _ => [], cfgU⟩

/-- Concrete state for the call witness: the current function `f` holds a
tainted argument variable, and `g` has no summary yet. -/
def stW6 : TState := ⟨[], [], [], [("f", ⟨[("x", .taintedValue)], []⟩)], [], "f", some "bb"⟩

/-- Concrete call for the call witness: `g(x)` with destination `r` and a
non-void result type. -/
def callW6 : CallInst := ⟨"g", [(.localOp "x", .intType)], some "r", .intType⟩

/-- Context whose default external policy is `PropagateTaintShallow`. -/
def ctxW7 : Ctx := ⟨[], fun _ => [], fun _ _ => [], ⟨[], .propagateTaintShallow, false⟩⟩

/-- Summary of the external function in the shallow-propagation witness:
one tainted parameter, an untainted return. -/
def sW7 : FunctionSummary := ⟨[.taintedValue], some .untaintedValue⟩

/-- Concrete state for the shallow-propagation witness. -/
def stW7 : TState := ⟨[], [], [], [], [("h", sW7)], "f", none⟩

/-- Concrete state for the unwrap witness: the callee `g` has a summary
with a void return, and the current function `f` has a taint state. -/
def stW9 : TState := ⟨[], [], [], [("f", ⟨[], []⟩)], [("g", ⟨[], none⟩)], "f", some "bb"⟩

/-- Concrete call for the unwrap witness: `g()` has a destination although
the summary return is void. -/
def callW9 : CallInst := ⟨"g", [], some "r", .voidType⟩

/-- Concrete function for the parameter-mirroring witness: one parameter,
no basic blocks. -/
def fnW10 : Function := ⟨"g", [⟨"p", .intType⟩], .voidType, []⟩

/-- Concrete state for the parameter-mirroring witness: the summary
parameter is tainted while the parameter variable is still untainted, so
the mirroring strictly upgrades the variable map. -/
def stW10 : TState :=
  ⟨[], [], [], [("g", ⟨[("p", .untaintedValue)], []⟩)], [("g", ⟨[.taintedValue], none⟩)],
   "f", none⟩

theorem iteIteSame {α : Type} (a b : Bool) (x y : α) :
    (if a then x else if b then x else y) = (if a || b then x else y) := by
  cases a <;> cases b <;> simp

/-- C1: the spec's divergence guard aborts only when one function changes
in many consecutive pops with no intervening progress, and otherwise the
loop runs the worklist to empty, re-adding a changed function.  The code
instead counts every changed pop of any function in a never-reset
counter and panics with `Infinite analysis` at the eighth: eight
independent trivial functions, each changing exactly once on its first
pass, abort the analysis, while the same run with only seven functions
finishes. -/
theorem claim_C1_divergence_guard :
    compute ctxC1 10 40 stC1 = ComputeOut.aborted (.panicked "Infinite analysis") ∧
    isFinished (compute ctxC1b 10 40 stC1b) = true :=
  ⟨rfl, rfl⟩

/-- C10: an upgrade applied to a parameter variable while mirroring the
summary parameters into the variable map never by itself makes
`process_function` report a change: with no basic blocks, the pass can
never return a `true` change flag, whatever the mirroring did. -/
theorem claim_C10_mirroring_not_counted (ctx : Ctx) (fuel : Nat) (st : TState)
    (f : Function) (hb : f.basicBlocks = []) (st2 : TState) :
    processFunction ctx fuel st f ≠ Except.ok (st2, true) := by
  intro heq
  unfold processFunction at heq
  cases hp : prepFunction ctx fuel st f with
  | error a => rw [hp] at heq; exact absurd heq (by simp)
  | ok stP =>
      rw [hp, hb] at heq
      simp [processBlocks] at heq

theorem claim_C10_witness :
    processFunction ctxW 5 stW10 fnW10 ≠ Except.ok (stW10, true) :=
  claim_C10_mirroring_not_counted ctxW 5 stW10 fnW10 rfl stW10

/-- C3: a store through an untainted or tainted data pointer updates the
pointee cell with `to_tainted(value)` when some block the current block
is control-dependent on has a tainted terminator and with `value`
otherwise, and a store through any non-pointer type fails with an
analysis error. -/
theorem claim_C3_store (ctx : Ctx) (fuel : Nat) (st : TState) (value : TaintedType) :
    (∀ c, processStore ctx fuel st value (.untaintedPointer c) =
            storeClaimC3 ctx fuel st value c ∧
          processStore ctx fuel st value (.taintedPointer c) =
            storeClaimC3 ctx fuel st value c) ∧
    (∀ addr, isDataPtr addr = false →
      isErrStr (processStore ctx fuel st value addr) = true) := by
  refine ⟨fun c => ⟨rfl, rfl⟩, fun addr h => ?_⟩
  cases addr <;> first
    | rfl
    | exact absurd h (by simp [isDataPtr])

theorem claim_C3_witness :
    isErrStr (processStore ctxW 5 stW3 TaintedType.taintedValue TaintedType.untaintedValue)
      = true :=
  (claim_C3_store ctxW 5 stW3 .taintedValue).2 .untaintedValue rfl

/-- C5: a load through `UntaintedPointer(cell)` returns the cell's current
pointee type unchanged; through `TaintedPointer(cell)` it returns the
cell's pointee type after upgrading the cell to tainted exactly when
`dereferencing_tainted_ptr_gives_tainted` is set; a load through a
scalar, function pointer or aggregate fails with an analysis error. -/
theorem claim_C5_load (ctx : Ctx) (fuel : Nat) (st : TState) :
    (∀ c, getLoadResultTy ctx fuel st (.untaintedPointer c) =
            Except.ok (st, cellTyOf st.cells c) ∧
          getLoadResultTy ctx fuel st (.taintedPointer c) = loadClaimC5 ctx fuel st c) ∧
    (∀ addr, isDataPtr addr = false →
      isErrStr (getLoadResultTy ctx fuel st addr) = true) := by
  refine ⟨fun c => ⟨rfl, rfl⟩, fun addr h => ?_⟩
  cases addr <;> first
    | rfl
    | exact absurd h (by simp [isDataPtr])

theorem claim_C5_witness :
    isErrStr (getLoadResultTy ctxW 5 stW3 TaintedType.taintedValue) = true :=
  (claim_C5_load ctxW 5 stW3).2 .taintedValue rfl

/-- C8: processing `CondBr`, `Switch` and `IndirectBr` marks the current
block terminator-tainted exactly when the operand's tainted type is
tainted (each of the three equals the claim-side step), and processing an
unconditional `Br` or `Unreachable` changes nothing and reports no
change. -/
theorem claim_C8_terminators (ctx : Ctx) (fuel : Nat) (st : TState) :
    (∀ op, processTerminator ctx fuel st (.condBr op) = termClaimC8 fuel st op ∧
           processTerminator ctx fuel st (.switch op) = termClaimC8 fuel st op ∧
           processTerminator ctx fuel st (.indirectBr op) = termClaimC8 fuel st op) ∧
    processTerminator ctx fuel st .br = Except.ok (st, false) ∧
    processTerminator ctx fuel st .unreachable = Except.ok (st, false) :=
  ⟨fun _ => ⟨rfl, rfl, rfl⟩, rfl, rfl⟩

/-- C4: the Phi transfer function computes the join of the incoming
tainted types, upgrades it to tainted when the current block or any
incoming predecessor block is control-dependent on a block with tainted
terminator, and `update_var`s the result: it equals the claim-side
formulation with the single disjunctive condition. -/
theorem claim_C4_phi (ctx : Ctx) (fuel : Nat) (st : TState)
    (incoming : List (Operand × String)) (res : String) :
    processInstruction ctx fuel st (.phi incoming res) =
      phiClaimC4 ctx fuel st incoming res := by
  simp only [processInstruction, phiClaimC4, iteIteSame]

/-- C2 counterexample: in a block control-dependent on a block with
tainted terminator (so the Store implicit-flow condition holds, and the
tainted upgrade of the stored value is `TaintedValue`), a direct
`llvm.memset` call leaves the destination cell's pointee untainted and
reports no change, contradicting the claim that the cell is updated with
the tainted upgrade of the value's type. -/
theorem claim_C2_counterexample :
    ctrlDepOnTainted ctxC2 "f" ftsC2 "bb" = true ∧
    toTainted 10 stC2.structs stC2.worklist .untaintedValue
      = Except.ok (stC2.structs, stC2.worklist, .taintedValue) ∧
    processInstruction ctxC2 10 stC2 (.call memsetC2) = Except.ok (stC2, false) ∧
    cellTyOf stC2.cells 0 = TaintedType.untaintedValue ∧
    TaintedType.untaintedValue ≠ TaintedType.taintedValue :=
  ⟨rfl, rfl, rfl, rfl, fun h => nomatch h⟩

/-- C2 as amended: a direct call of a function whose name begins with
`llvm.memset` updates the destination pointer's pointee cell with the
value operand's tainted type directly, without the implicit-flow rule of
Store. -/
theorem claim_C2_amended_memset (ctx : Ctx) (fuel : Nat) (st : TState) (c : CallInst)
    (h1 : (strStartsWith c.funcName "llvm.lifetime"
        || strStartsWith c.funcName "llvm.invariant"
        || strStartsWith c.funcName "llvm.launder.invariant"
        || strStartsWith c.funcName "llvm.strip.invariant"
        || strStartsWith c.funcName "llvm.dbg") = false)
    (h2 : strStartsWith c.funcName "llvm.memset" = true) :
    processInstruction ctx fuel st (.call c) = memsetClaimC2 fuel st c := by
  simp only [processInstruction, memsetClaimC2, h1, h2, Bool.false_eq_true, if_false, if_true]

theorem claim_C2_amended_witness :
    processInstruction ctxC2 10 stC2 (.call memsetC2) = memsetClaimC2 10 stC2 memsetC2 :=
  claim_C2_amended_memset ctxC2 10 stC2 memsetC2 (by decide) (by decide)

theorem mem_wlAdd_self (wl : WL) (f : String) : f ∈ wlAdd wl f := by
  unfold wlAdd; split
  · assumption
  · simp

theorem mem_wlAdd_of_mem {wl : WL} {x : String} (h : x ∈ wl) (f : String) :
    x ∈ wlAdd wl f := by
  unfold wlAdd; split
  · exact h
  · exact List.mem_append_left _ h

theorem mem_foldl_wlAdd_of_mem {x : String} :
    ∀ (l : List String) (wl : WL), x ∈ wl → x ∈ l.foldl wlAdd wl
  | [], _, h => h
  | y :: ys, wl, h => mem_foldl_wlAdd_of_mem ys (wlAdd wl y) (mem_wlAdd_of_mem h y)

theorem mem_foldl_wlAdd_of_mem_list {x : String} :
    ∀ (l : List String) (wl : WL), x ∈ l → x ∈ l.foldl wlAdd wl
  | y :: ys, wl, h => by
      cases h with
      | head => exact mem_foldl_wlAdd_of_mem ys (wlAdd wl x) (mem_wlAdd_self wl x)
      | tail _ h2 => exact mem_foldl_wlAdd_of_mem_list ys (wlAdd wl y) h2

theorem lookupS_setEntry_self {α : Type} (l : List (String × α)) (k : String) (v : α) :
    lookupS k (setEntry l k v) = some v := by
  induction l with
  | nil => simp [setEntry, lookupS]
  | cons p rest ih =>
      obtain ⟨k2, v2⟩ := p
      by_cases h : k2 = k
      · simp [setEntry, h, lookupS]
      · simp [setEntry, h, lookupS, ih]

theorem updateParams_ret {fuel : Nat} {cells : Cells} {s : FunctionSummary}
    {tys : List TaintedType} {cells2 : Cells} {s2 : FunctionSummary} {ch : Bool}
    (h : updateParams fuel cells s tys = Except.ok (cells2, s2, ch)) : s2.ret = s.ret := by
  unfold updateParams at h
  cases hj : joinParamLists fuel cells s.params tys with
  | error m => rw [hj] at h; cases h
  | ok t =>
      obtain ⟨c1, ps, ch1⟩ := t
      rw [hj] at h
      simp only [Except.ok.injEq, Prod.mk.injEq] at h
      obtain ⟨-, h2, -⟩ := h
      rw [← h2]

theorem acquireSummary_preserved (st : TState) (c : CallInst) :
    (acquireSummary st c).1.ftsMap = st.ftsMap ∧ (acquireSummary st c).1.curFn = st.curFn ∧
    (acquireSummary st c).1.curBlock = st.curBlock ∧
    (acquireSummary st c).1.structs = st.structs := by
  unfold acquireSummary
  cases lookupS c.funcName st.summaries <;> simp

theorem acquireSummary_lookup (st : TState) (c : CallInst) :
    lookupS c.funcName (acquireSummary st c).1.summaries = some (acquireSummary st c).2 := by
  unfold acquireSummary
  cases h : lookupS c.funcName st.summaries with
  | some s => simpa using h
  | none => simp [lookupS_setEntry_self]

theorem acquireSummary_wl_mem (st : TState) (c : CallInst)
    (h : lookupS c.funcName st.summaries = none) :
    c.funcName ∈ (acquireSummary st c).1.worklist := by
  unfold acquireSummary
  rw [h]
  exact mem_wlAdd_self st.worklist c.funcName

theorem acquireSummary_retPresent (st : TState) (c : CallInst) :
    (acquireSummary st c).2.ret.isSome = retPresent st c := by
  unfold acquireSummary retPresent
  cases lookupS c.funcName st.summaries with
  | some s => simp
  | none => cases c.retLlvmTy <;> simp [newUntaintedSummary]

theorem updateVarFts_defines {fuel : Nat} {cells : Cells} {fts : FunctionTaintState}
    {name : String} {ty : TaintedType} {cells1 : Cells} {fts1 : FunctionTaintState}
    {b : Bool} (h : updateVarFts fuel cells fts name ty = Except.ok (cells1, fts1, b)) :
    (lookupS name fts1.vars).isSome = true := by
  unfold updateVarFts at h
  cases hl : lookupS name fts.vars with
  | none =>
      simp only [hl, Except.ok.injEq, Prod.mk.injEq] at h
      obtain ⟨-, h2, -⟩ := h
      rw [← h2]
      simp [lookupS_setEntry_self]
  | some cur =>
      simp only [hl] at h
      cases hj : join fuel cells cur ty with
      | error m => simp only [hj] at h; cases h
      | ok t =>
          obtain ⟨c2, j⟩ := t
          simp only [hj] at h
          by_cases ht : tteq j cur = true
          · rw [if_pos ht] at h
            simp only [Except.ok.injEq, Prod.mk.injEq] at h
            obtain ⟨-, h2, -⟩ := h
            rw [← h2, hl]
            rfl
          · rw [if_neg ht] at h
            simp only [Except.ok.injEq, Prod.mk.injEq] at h
            obtain ⟨-, h2, -⟩ := h
            rw [← h2]
            simp [lookupS_setEntry_self]

theorem stUpdateVar_spec {fuel : Nat} {st : TState} {name : String} {ty : TaintedType}
    {st1 : TState} {b : Bool} (h : stUpdateVar fuel st name ty = Except.ok (st1, b)) :
    st1.worklist = st.worklist ∧ st1.summaries = st.summaries ∧ st1.curFn = st.curFn ∧
    st1.structs = st.structs ∧
    ∃ fts1, lookupS st.curFn st1.ftsMap = some fts1 ∧ (lookupS name fts1.vars).isSome = true := by
  unfold stUpdateVar getCurrentFts at h
  cases hl : lookupS st.curFn st.ftsMap with
  | none => simp only [hl] at h; cases h
  | some fts =>
      simp only [hl] at h
      cases hu : updateVarFts fuel st.cells fts name ty with
      | error m => simp only [hu] at h; cases h
      | ok t =>
          obtain ⟨cells1, fts1, ch⟩ := t
          simp only [hu] at h
          simp only [Except.ok.injEq, Prod.mk.injEq] at h
          obtain ⟨h1, -⟩ := h
          rw [← h1]
          refine ⟨rfl, rfl, rfl, rfl, fts1, ?_, updateVarFts_defines hu⟩
          simp [setCurrentFts, lookupS_setEntry_self]

theorem stUpdateVar_not_panicked {fuel : Nat} {st : TState} {name : String}
    {ty : TaintedType} (h : (lookupS st.curFn st.ftsMap).isSome = true) (m : String) :
    stUpdateVar fuel st name ty ≠ Except.error (.panicked m) := by
  intro heq
  unfold stUpdateVar getCurrentFts at heq
  cases hl : lookupS st.curFn st.ftsMap with
  | none => rw [hl] at h; cases h
  | some fts =>
      simp only [hl] at heq
      cases hu : updateVarFts fuel st.cells fts name ty with
      | error m2 => simp only [hu] at heq; cases heq
      | ok t => obtain ⟨c1, f1, b1⟩ := t; simp only [hu] at heq; cases heq

/-- C7: when a popped function is not defined in the available modules and
its policy is `PropagateTaintShallow`, the summary's return type is
upgraded to tainted when any of the summary's parameter types is tainted
and nothing happens otherwise (the external handling equals the
claim-side step), and in neither case is any pointee cell changed --
in particular no pointee reachable through the arguments is upgraded. -/
theorem claim_C7_shallow (ctx : Ctx) (fuel : Nat) (st : TState) (fnName : String)
    (s : FunctionSummary)
    (hpol : (lookupS fnName ctx.config.extFunctions).getD ctx.config.extFunctionsDefault
      = ExtFunctionHandling.propagateTaintShallow)
    (hsum : lookupS fnName st.summaries = some s) :
    handleExtFunction ctx fuel st fnName = shallowClaimC7 fuel st fnName s ∧
    (∀ st2 ch, handleExtFunction ctx fuel st fnName = Except.ok (st2, ch) →
      st2.cells = st.cells) := by
  have heq : handleExtFunction ctx fuel st fnName = shallowClaimC7 fuel st fnName s := by
    unfold handleExtFunction shallowClaimC7
    simp only [hpol, hsum]
  refine ⟨heq, fun st2 ch h => ?_⟩
  rw [heq] at h
  unfold shallowClaimC7 at h
  cases ha : anyParamTainted fuel st.structs st.curFn s.params with
  | error m => simp only [ha] at h; cases h
  | ok t =>
      obtain ⟨structs1, anyT⟩ := t
      simp only [ha] at h
      cases anyT with
      | false =>
          simp only [Bool.false_eq_true, if_false, Except.ok.injEq, Prod.mk.injEq] at h
          obtain ⟨h1, -⟩ := h
          rw [← h1]
      | true =>
          simp only [if_true] at h
          cases ht : taintRet fuel structs1 st.worklist s with
          | error m => simp only [ht] at h; cases h
          | ok q =>
              obtain ⟨structs2, wl, s1, chb⟩ := q
              simp only [ht, Except.ok.injEq, Prod.mk.injEq] at h
              obtain ⟨h1, -⟩ := h
              rw [← h1]

theorem claim_C7_witness :
    handleExtFunction ctxW7 5 stW7 "h" = shallowClaimC7 5 stW7 "h" sW7 :=
  (claim_C7_shallow ctxW7 5 stW7 "h" sW7 rfl rfl).1

theorem callArgTys_not_panicked {st : TState} {c : CallInst}
    (h : (lookupS st.curFn st.ftsMap).isSome = true) (m : String) :
    callArgTys st c ≠ Except.error (.panicked m) := by
  intro heq
  unfold callArgTys getCurrentFts at heq
  cases hl : lookupS st.curFn st.ftsMap with
  | none => rw [hl] at h; cases h
  | some fts =>
      simp only [hl] at heq
      cases hm : c.arguments.mapM (fun a => getTypeOfOperand fts a.1) with
      | error m2 => simp only [hm] at heq; cases heq
      | ok tys => simp only [hm] at heq; cases heq

/-- C9: `process_function_call` requires a summary return type whenever
the call has a destination: when the destination is absent or the
summary return is present (and the current function has a taint state),
no panic is possible, and when the call has a destination while the
relevant summary return is void, the call never succeeds, and -- when
the earlier stages succeed -- it panics via the unwrap of `None` rather
than returning an analysis error. -/
theorem claim_C9_ret_unwrap (ctx : Ctx) (fuel : Nat) (st : TState) (c : CallInst) :
    ((c.dest.isSome = true → retPresent st c = true) →
      (lookupS st.curFn st.ftsMap).isSome = true →
      ∀ m, processFunctionCall ctx fuel st c ≠ Except.error (.panicked m)) ∧
    (∀ v, c.dest = some v → retPresent st c = false →
      (∀ st2 ch, processFunctionCall ctx fuel st c ≠ Except.ok (st2, ch)) ∧
      (∀ tys cells2 s2 chg,
        callArgTys (acquireSummary st c).1 c = Except.ok tys →
        updateParams fuel (acquireSummary st c).1.cells (acquireSummary st c).2 tys
          = Except.ok (cells2, s2, chg) →
        processFunctionCall ctx fuel st c
          = Except.error (.panicked "unwrap of None"))) := by
  have hpre := acquireSummary_preserved st c
  constructor
  · intro hret hfts m heq
    unfold processFunctionCall at heq
    cases hA : callArgTys (acquireSummary st c).1 c with
    | error a =>
        simp only [hA] at heq
        cases heq
        have hfts1 : (lookupS (acquireSummary st c).1.curFn
            (acquireSummary st c).1.ftsMap).isSome = true := by
          rw [hpre.2.1, hpre.1]; exact hfts
        exact callArgTys_not_panicked hfts1 m hA
    | ok tys =>
        simp only [hA] at heq
        cases hU : updateParams fuel (acquireSummary st c).1.cells
            (acquireSummary st c).2 tys with
        | error m2 => simp only [hU] at heq; simp at heq
        | ok t =>
            obtain ⟨cells2, s2, chg⟩ := t
            simp only [hU] at heq
            cases hd : c.dest with
            | none => simp only [hd] at heq; cases heq
            | some v =>
                simp only [hd] at heq
                have hrp : retPresent st c = true := hret (by rw [hd]; rfl)
                have hs2 : s2.ret = (acquireSummary st c).2.ret := updateParams_ret hU
                have hsome : s2.ret.isSome = true := by
                  rw [hs2, acquireSummary_retPresent]; exact hrp
                cases hr : s2.ret with
                | none => rw [hr] at hsome; cases hsome
                | some r =>
                    simp only [hr] at heq
                    refine stUpdateVar_not_panicked ?_ m heq
                    show (lookupS (acquireSummary st c).1.curFn
                      (acquireSummary st c).1.ftsMap).isSome = true
                    rw [hpre.2.1, hpre.1]; exact hfts
  · intro v hd hrpf
    have habs : ∀ s2 : FunctionSummary,
        s2.ret = (acquireSummary st c).2.ret → s2.ret.isSome = false := by
      intro s2 hs2
      rw [hs2, acquireSummary_retPresent]; exact hrpf
    constructor
    · intro st2 ch heq
      unfold processFunctionCall at heq
      cases hA : callArgTys (acquireSummary st c).1 c with
      | error a => simp only [hA] at heq; cases heq
      | ok tys =>
          simp only [hA] at heq
          cases hU : updateParams fuel (acquireSummary st c).1.cells
              (acquireSummary st c).2 tys with
          | error m2 => simp only [hU] at heq; cases heq
          | ok t =>
              obtain ⟨cells2, s2, chg⟩ := t
              simp only [hU, hd] at heq
              have hnone := habs s2 (updateParams_ret hU)
              cases hr : s2.ret with
              | some r => rw [hr] at hnone; cases hnone
              | none => simp only [hr] at heq; cases heq
    · intro tys cells2 s2 chg hA hU
      unfold processFunctionCall
      simp only [hA, hU, hd]
      have hnone := habs s2 (updateParams_ret hU)
      cases hr : s2.ret with
      | some r => rw [hr] at hnone; cases hnone
      | none => simp only [hr]

theorem claim_C9_witness :
    processFunctionCall ctxW 5 stW9 callW9 = Except.error (.panicked "unwrap of None") :=
  ((claim_C9_ret_unwrap ctxW 5 stW9 callW9).2 "r" rfl rfl).2 [] [] ⟨[], none⟩ false rfl rfl

/-- C6: a successful `process_function_call` of a callee by global name
created a summary and enqueued the callee when none existed, leaves the
callee with a summary, reports no current-function change for a
destination-less call, and -- naming the intermediate argument types and
parameter update -- records exactly the parameter-joined summary, on a
parameter change enqueues every caller of the callee and the callee
itself, and for a call with a destination finds a summary return type
`r` and is exactly the `update_var` of the destination variable with
`r` on the post-update state, so the destination is updated with the
summary's return type and in particular becomes defined. -/
theorem claim_C6_function_call (ctx : Ctx) (fuel : Nat) (st : TState) (c : CallInst)
    (st2 : TState) (ch : Bool)
    (h : processFunctionCall ctx fuel st c = Except.ok (st2, ch)) :
    (lookupS c.funcName st.summaries = none → c.funcName ∈ st2.worklist) ∧
    (lookupS c.funcName st2.summaries).isSome = true ∧
    (c.dest = none → ch = false) ∧
    (∀ tys cells2 s2 chg,
      callArgTys (acquireSummary st c).1 c = Except.ok tys →
      updateParams fuel (acquireSummary st c).1.cells (acquireSummary st c).2 tys
        = Except.ok (cells2, s2, chg) →
      lookupS c.funcName st2.summaries = some s2 ∧
      (chg = true → (∀ caller ∈ ctx.callers c.funcName, caller ∈ st2.worklist) ∧
        c.funcName ∈ st2.worklist) ∧
      (∀ v, c.dest = some v → ∃ r, s2.ret = some r ∧
        processFunctionCall ctx fuel st c =
          stUpdateVar fuel
            { (acquireSummary st c).1 with
                cells := cells2,
                summaries := setEntry (acquireSummary st c).1.summaries c.funcName s2,
                worklist :=
                  if chg then
                    wlAdd ((ctx.callers c.funcName).foldl wlAdd
                      (acquireSummary st c).1.worklist) c.funcName
                  else (acquireSummary st c).1.worklist } v r ∧
        ∃ fts1, lookupS st.curFn st2.ftsMap = some fts1 ∧
          (lookupS v fts1.vars).isSome = true)) := by
  have hpre := acquireSummary_preserved st c
  unfold processFunctionCall at h
  cases hA : callArgTys (acquireSummary st c).1 c with
  | error a => simp only [hA] at h; cases h
  | ok tys =>
      simp only [hA] at h
      cases hU : updateParams fuel (acquireSummary st c).1.cells
          (acquireSummary st c).2 tys with
      | error m => simp only [hU] at h; cases h
      | ok t =>
          obtain ⟨cells2, s2, chg⟩ := t
          simp only [hU] at h
          -- facts about the post-update state, independent of the destination
          have hwl : ∀ x, x ∈ (acquireSummary st c).1.worklist →
              x ∈ (if chg = true then
                wlAdd ((ctx.callers c.funcName).foldl wlAdd
                  (acquireSummary st c).1.worklist) c.funcName
              else (acquireSummary st c).1.worklist) := by
            intro x hx
            cases chg with
            | false => simpa using hx
            | true =>
                simp only [if_pos rfl]
                exact mem_wlAdd_of_mem (mem_foldl_wlAdd_of_mem _ _ hx) _
          have hwlchg : chg = true →
              (∀ caller ∈ ctx.callers c.funcName,
                caller ∈ (if chg = true then
                  wlAdd ((ctx.callers c.funcName).foldl wlAdd
                    (acquireSummary st c).1.worklist) c.funcName
                else (acquireSummary st c).1.worklist)) ∧
              c.funcName ∈ (if chg = true then
                wlAdd ((ctx.callers c.funcName).foldl wlAdd
                  (acquireSummary st c).1.worklist) c.funcName
              else (acquireSummary st c).1.worklist) := by
            intro hchg
            subst hchg
            simp only [if_pos rfl]
            refine ⟨fun caller hcaller => ?_, mem_wlAdd_self _ _⟩
            exact mem_wlAdd_of_mem (mem_foldl_wlAdd_of_mem_list _ _ hcaller) _
          cases hd : c.dest with
          | none =>
              simp only [hd, Except.ok.injEq, Prod.mk.injEq] at h
              obtain ⟨hst, hch⟩ := h
              refine ⟨?_, ?_, fun _ => hch.symm, ?_⟩
              · intro hnone
                rw [← hst]
                exact hwl c.funcName (acquireSummary_wl_mem st c hnone)
              · rw [← hst]
                show (lookupS c.funcName
                  (setEntry (acquireSummary st c).1.summaries c.funcName s2)).isSome = true
                rw [lookupS_setEntry_self]
                rfl
              · intro tys0 cells20 s20 chg0 hA0 hU0
                injection hA0 with htys
                subst htys
                rw [hU] at hU0
                simp only [Except.ok.injEq, Prod.mk.injEq] at hU0
                obtain ⟨-, hs, hchg⟩ := hU0
                subst hs
                subst hchg
                refine ⟨?_, ?_, ?_⟩
                · rw [← hst]
                  exact lookupS_setEntry_self _ _ _
                · intro hchg1
                  have := hwlchg hchg1
                  rw [← hst]
                  exact this
                · intro v hv
                  cases hv
          | some v =>
              simp only [hd] at h
              cases hr : s2.ret with
              | none => simp only [hr] at h; cases h
              | some r =>
                  simp only [hr] at h
                  have hspec := stUpdateVar_spec h
                  obtain ⟨hw, hs, hcf, -, fts1, hfts1, hv1⟩ := hspec
                  refine ⟨?_, ?_, ?_, ?_⟩
                  · intro hnone
                    rw [hw]
                    exact hwl c.funcName (acquireSummary_wl_mem st c hnone)
                  · rw [hs]
                    show (lookupS c.funcName
                      (setEntry (acquireSummary st c).1.summaries c.funcName s2)).isSome = true
                    rw [lookupS_setEntry_self]
                    rfl
                  · intro hdn
                    cases hdn
                  · intro tys0 cells20 s20 chg0 hA0 hU0
                    injection hA0 with htys
                    subst htys
                    rw [hU] at hU0
                    simp only [Except.ok.injEq, Prod.mk.injEq] at hU0
                    obtain ⟨hc0, hs0, hchg⟩ := hU0
                    subst hc0
                    subst hs0
                    subst hchg
                    refine ⟨?_, ?_, ?_⟩
                    · rw [hs]
                      exact lookupS_setEntry_self _ _ _
                    · intro hchg1
                      have := hwlchg hchg1
                      rw [hw]
                      exact this
                    · intro v0 hv0
                      injection hv0 with hv0e
                      subst hv0e
                      refine ⟨r, hr, ?_, fts1, ?_, hv1⟩
                      · unfold processFunctionCall
                        simp only [hA, hU, hd, hr]
                      · rw [← hpre.2.1]
                        exact hfts1

theorem claim_C6_witness :
    "g" ∈ wlOfCall (processFunctionCall ctxW6 10 stW6 callW6) := by
  have hok : exOk (processFunctionCall ctxW6 10 stW6 callW6) = true := by decide
  cases hres : processFunctionCall ctxW6 10 stW6 callW6 with
  | error a => rw [hres] at hok; cases hok
  | ok p =>
      obtain ⟨stq, chq⟩ := p
      have hmem := (claim_C6_function_call ctxW6 10 stW6 callW6 stq chq hres).1 rfl
      exact hmem

end LlvmTaint
